import Mathlib

/-!
Shallow embedding of the CHIP-8 virtual machine core implemented in
src/chip8.c: the machine state, the initializer initChip8, the
fetch-decode-execute engine emulateChip8Cycle, and the timer tick
updateChip8Timers.

Modelling conventions:
* Byte (8-bit) and DoubleByte (16-bit) cells are Nat values; every C
  assignment whose right hand side can exceed the cell width carries an
  explicit % 256 or % 65536, matching unsigned truncation.
* C arrays (memory, registers, pixels, stack, keys) are total maps
  Nat → Nat (or Nat → Bool), mirroring unchecked C indexing.  Where an
  array bound decides a claim (the 15-entry register file used by
  FX55/FX65), a bounds-checked variant of the access is defined as well.
* The exit(5) call on an unknown opcode is modelled as the unknownOpcode
  result: the process terminates and no successor state exists.
* The one rand() call (opcode CXNN) reads the host C library PRNG, which
  lives outside the struct; it is modelled as an extra input of the cycle
  function.
-/

/-- State of the emulator.  Modelled from the spec: the struct chip8 is
declared in the header chip8.h, which is absent from src/; its fields and
their widths are the ones listed in the data model section of the spec and
used throughout src/chip8.c. -/
structure Chip8 where
  opcode : Nat
  memory : Nat → Nat
  registers : Nat → Nat
  carryRegister : Nat
  indexRegister : Nat
  programCounter : Nat
  pixels : Nat → Nat
  delayTimer : Nat
  soundTimer : Nat
  stack : Nat → Nat
  stackPointer : Nat
  keys : Nat → Bool
  drawFlag : Bool
  soundFlag : Bool

/-- Pointwise update of a Nat-valued array modelled as a map. -/
def upd (f : Nat → Nat) (i v : Nat) : Nat → Nat :=
  fun j => if j = i then v else f j

/-- Pointwise update of a Bool-valued array modelled as a map. -/
def updB (f : Nat → Bool) (i : Nat) (v : Bool) : Nat → Bool :=
  fun j => if j = i then v else f j

/-- Number of general purpose registers (chip8.c line 13). -/
def NUM_OF_REGISTERS : Nat := 15

/-- Fontset array (chip8.c lines 27-45), 80 bytes of glyph data. -/
def fontset : List Nat :=
  [0xF0, 0x90, 0x90, 0x90, 0xF0,
   0x20, 0x60, 0x20, 0x20, 0x70,
   0xF0, 0x10, 0xF0, 0x80, 0xF0,
   0xF0, 0x10, 0xF0, 0x10, 0xF0,
   0x90, 0x90, 0xF0, 0x10, 0x10,
   0xF0, 0x80, 0xF0, 0x10, 0xF0,
   0xF0, 0x80, 0xF0, 0x90, 0xF0,
   0xF0, 0x10, 0x20, 0x40, 0x40,
   0xF0, 0x90, 0xF0, 0x90, 0xF0,
   0xF0, 0x90, 0xF0, 0x10, 0xF0,
   0xF0, 0x90, 0xF0, 0x90, 0x90,
   0xE0, 0x90, 0xE0, 0x90, 0xE0,
   0xF0, 0x80, 0x80, 0x80, 0xF0,
   0xE0, 0x90, 0x90, 0x90, 0xE0,
   0xF0, 0x80, 0xF0, 0x80, 0xF0,
   0xF0, 0x80, 0xF0, 0x80, 0x80]

/-- Ascending loop clearing cells 0..n-1 of a Nat array: the pixel, stack,
register and memory clearing loops of initChip8, and the screen clear of
opcode 00E0. -/
def clearLoop (f : Nat → Nat) : Nat → (Nat → Nat)
  | 0 => f
  | n + 1 => upd (clearLoop f n) n 0

/-- Loop clearing keys 0..n-1 (initChip8, chip8.c lines 77-80). -/
def clearKeys (f : Nat → Bool) : Nat → (Nat → Bool)
  | 0 => f
  | n + 1 => updB (clearKeys f n) n false

/-- Loop copying the fontset into memory cells 0..n-1 (initChip8,
chip8.c lines 89-92). -/
def loadFontset (f : Nat → Nat) : Nat → (Nat → Nat)
  | 0 => f
  | n + 1 => upd (loadFontset f n) n (fontset.getD n 0)

/-- Embedding of initChip8 (chip8.c lines 48-99).  The C function mutates
the struct in place; here it maps the previous state to the new one.  The
srand call seeds the host PRNG outside the struct.  The soundFlag field is
never written by initChip8. -/
def initChip8 (c : Chip8) : Chip8 :=
  { c with
    programCounter := 0x200
    opcode := 0
    indexRegister := 0
    stackPointer := 0
    drawFlag := false
    pixels := clearLoop c.pixels 2048
    stack := clearLoop c.stack 16
    registers := clearLoop c.registers NUM_OF_REGISTERS
    carryRegister := 0
    keys := clearKeys c.keys 16
    memory := loadFontset (clearLoop c.memory 4096) 0x50
    soundTimer := 0
    delayTimer := 0 }

/-- Result of one engine cycle: a successor state, or the fatal
unknown-opcode path (printf followed by exit(5)) carrying the offending
opcode word. -/
inductive StepResult where
  | ok : Chip8 → StepResult
  | unknownOpcode : Nat → StepResult

/-- Projection of a Nat-valued component out of a step result; none when
the cycle ended in the unknown-opcode exit. -/
def resultField (f : Chip8 → Nat) : StepResult → Option Nat
  | .ok c => some (f c)
  | .unknownOpcode _ => none

/-- Opcode fetch (chip8.c line 167): two consecutive memory bytes, high
byte first, stored into the 16-bit opcode field. -/
def fetchOpcode (s : Chip8) : Nat :=
  ((s.memory s.programCounter <<< 8) ||| s.memory (s.programCounter + 1)) % 65536

/-- Family 0x0 (chip8.c lines 177-215): 00E0 clear screen, 00EE return
from subroutine, otherwise exit(5).  The stack pointer decrement of 00EE
is truncated Nat subtraction; the C underflow at stackPointer = 0 reads
outside the stack and is not exercised by any claim. -/
def exec0 (s : Chip8) (w : Nat) : StepResult :=
  if w &&& 0x0FFF = 0x00E0 then
    .ok { s with pixels := clearLoop s.pixels 2048,
                 programCounter := (s.programCounter + 2) % 65536,
                 drawFlag := true }
  else if w &&& 0x0FFF = 0x00EE then
    .ok { s with stackPointer := s.stackPointer - 1,
                 programCounter := (s.stack (s.stackPointer - 1) + 2) % 65536 }
  else
    .unknownOpcode w

/-- Family 0x8 (chip8.c lines 297-404): register-to-register arithmetic.
In case 0x4 the C code zeroes carryRegister, adds into registers[X], and
only afterwards runs the overflow test, which therefore reads the already
updated array; the net carry value is the conditional below.  Byte
subtraction in cases 0x5 and 0x7 is the wrap-around of unsigned char. -/
def exec8 (s : Chip8) (w : Nat) : StepResult :=
  let X := (w &&& 0x0F00) >>> 8
  let Y := (w &&& 0x00F0) >>> 4
  if w &&& 0x000F = 0x0 then
    .ok { s with registers := upd s.registers X (s.registers Y),
                 programCounter := (s.programCounter + 2) % 65536 }
  else if w &&& 0x000F = 0x1 then
    .ok { s with registers := upd s.registers X (s.registers X ||| s.registers Y),
                 programCounter := (s.programCounter + 2) % 65536 }
  else if w &&& 0x000F = 0x2 then
    .ok { s with registers := upd s.registers X (s.registers X &&& s.registers Y),
                 programCounter := (s.programCounter + 2) % 65536 }
  else if w &&& 0x000F = 0x3 then
    .ok { s with registers := upd s.registers X (s.registers X ^^^ s.registers Y),
                 programCounter := (s.programCounter + 2) % 65536 }
  else if w &&& 0x000F = 0x4 then
    let regs2 := upd s.registers X ((s.registers X + s.registers Y) % 256)
    let carry := if regs2 Y > 0xFF - regs2 X then 1 else 0
    .ok { s with carryRegister := carry, registers := regs2,
                 programCounter := (s.programCounter + 2) % 65536 }
  else if w &&& 0x000F = 0x5 then
    let carry := if s.registers Y > s.registers X then 0 else 1
    .ok { s with carryRegister := carry,
                 registers := upd s.registers X ((s.registers X + 256 - s.registers Y) % 256),
                 programCounter := (s.programCounter + 2) % 65536 }
  else if w &&& 0x000F = 0x6 then
    .ok { s with carryRegister := s.registers X &&& 1,
                 registers := upd s.registers X (s.registers X >>> 1),
                 programCounter := (s.programCounter + 2) % 65536 }
  else if w &&& 0x000F = 0x7 then
    let carry := if s.registers X > s.registers Y then 0 else 1
    .ok { s with carryRegister := carry,
                 registers := upd s.registers X ((s.registers Y + 256 - s.registers X) % 256),
                 programCounter := (s.programCounter + 2) % 65536 }
  else if w &&& 0x000F = 0xE then
    .ok { s with carryRegister := (s.registers X >>> 7) % 256,
                 registers := upd s.registers X ((s.registers X <<< 1) % 256),
                 programCounter := (s.programCounter + 2) % 65536 }
  else
    .unknownOpcode w

/-- Inner column loop of the sprite draw (chip8.c lines 466-487) for one
row: ypr is the target row coordinate ypos + row, already fixed for the
whole loop.  The off-screen test uses strict comparison against 64 and 32,
exactly as the source does, and break stops the remaining columns of the
row.  Each drawn bit XORs pixel cell xpos + column + ypr * 64 and records
a collision when that cell held 1. -/
def drawCols (xpos ypr sprite : Nat) (px : Nat → Nat) (carry : Nat) :
    List Nat → (Nat → Nat) × Nat
  | [] => (px, carry)
  | c :: rest =>
    if xpos + c > 64 || ypr > 32 then
      (px, carry)
    else if sprite &&& (0x80 >>> c) ≠ 0 then
      drawCols xpos ypr sprite
        (upd px (xpos + c + ypr * 64) (px (xpos + c + ypr * 64) ^^^ 1))
        (if px (xpos + c + ypr * 64) = 1 then 1 else carry) rest
    else
      drawCols xpos ypr sprite px carry rest

/-- Outer row loop of the sprite draw (chip8.c lines 460-488): row r uses
sprite byte memory[indexRegister + r] and target row ypos + r. -/
def drawRows (mem : Nat → Nat) (ireg xpos ypos : Nat) (px : Nat → Nat)
    (carry : Nat) : List Nat → (Nat → Nat) × Nat
  | [] => (px, carry)
  | r :: rest =>
    let res := drawCols xpos (ypos + r) (mem (ireg + r)) px carry (List.range 8)
    drawRows mem ireg xpos ypos res.1 res.2 rest

/-- Family 0xD (chip8.c lines 448-493): sprite draw.  carryRegister starts
at 0 and becomes 1 exactly when some drawn bit turned a set pixel off. -/
def execD (s : Chip8) (w : Nat) : StepResult :=
  let xpos := s.registers ((w &&& 0x0F00) >>> 8)
  let ypos := s.registers ((w &&& 0x00F0) >>> 4)
  let height := w &&& 0x000F
  let res := drawRows s.memory s.indexRegister xpos ypos s.pixels 0 (List.range height)
  .ok { s with pixels := res.1, carryRegister := res.2, drawFlag := true,
               programCounter := (s.programCounter + 2) % 65536 }

/-- Family 0xE (chip8.c lines 495-525): key skips.  The inner switch of
this family has no default case, so an unmatched low byte falls through
with no state change at all. -/
def execE (s : Chip8) (w : Nat) : StepResult :=
  let X := (w &&& 0x0F00) >>> 8
  if w &&& 0xFF = 0x9E then
    if s.keys (s.registers X) then
      .ok { s with programCounter := (s.programCounter + 4) % 65536 }
    else
      .ok { s with programCounter := (s.programCounter + 2) % 65536 }
  else if w &&& 0xFF = 0xA1 then
    if s.keys (s.registers X) = false then
      .ok { s with programCounter := (s.programCounter + 4) % 65536 }
    else
      .ok { s with programCounter := (s.programCounter + 2) % 65536 }
  else
    .ok s

/-- Key scan of opcode FX0A (chip8.c lines 541-558): for every pressed key
the program counter is advanced by 2, the pressed flag is raised, and the
key index is stored into registers[X]; later iterations overwrite earlier
ones, so the scan does not stop at the first pressed key. -/
def fx0aLoop (X : Nat) (c : Chip8) (pressed : Bool) : List Nat → Chip8 × Bool
  | [] => (c, pressed)
  | k :: rest =>
    if c.keys k then
      fx0aLoop X { c with programCounter := (c.programCounter + 2) % 65536,
                          registers := upd c.registers X k } true rest
    else
      fx0aLoop X c pressed rest

/-- Store loop of opcode FX55 (chip8.c lines 614-617) over a list of
register indices: memory[indexRegister + r] = registers[r]. -/
def storeRegs (regs : Nat → Nat) (ireg : Nat) (mem : Nat → Nat) :
    List Nat → (Nat → Nat)
  | [] => mem
  | r :: rest => storeRegs regs ireg (upd mem (ireg + r) (regs r)) rest

/-- Load loop of opcode FX65 (chip8.c lines 625-628) over a list of
register indices: registers[r] = memory[indexRegister + r]. -/
def loadRegs (mem : Nat → Nat) (ireg : Nat) (regs : Nat → Nat) :
    List Nat → (Nat → Nat)
  | [] => regs
  | r :: rest => loadRegs mem ireg (upd regs r (mem (ireg + r))) rest

/-- Family 0xF (chip8.c lines 527-641): timers, key wait, index register
arithmetic, BCD, and the register save and restore loops; an unmatched low
byte reaches the default case and exit(5). -/
def execF (s : Chip8) (w : Nat) : StepResult :=
  let X := (w &&& 0x0F00) >>> 8
  if w &&& 0xFF = 0x07 then
    .ok { s with registers := upd s.registers X s.delayTimer,
                 programCounter := (s.programCounter + 2) % 65536 }
  else if w &&& 0xFF = 0x0A then
    let r := fx0aLoop X s false (List.range 16)
    if r.2 then .ok r.1 else .ok s
  else if w &&& 0xFF = 0x15 then
    .ok { s with delayTimer := s.registers X,
                 programCounter := (s.programCounter + 2) % 65536 }
  else if w &&& 0xFF = 0x18 then
    .ok { s with soundTimer := s.registers X,
                 programCounter := (s.programCounter + 2) % 65536 }
  else if w &&& 0xFF = 0x1E then
    .ok { s with indexRegister := (s.indexRegister + s.registers X) % 65536,
                 programCounter := (s.programCounter + 2) % 65536 }
  else if w &&& 0xFF = 0x29 then
    .ok { s with indexRegister := (s.registers X * 0x5) % 65536,
                 programCounter := (s.programCounter + 2) % 65536 }
  else if w &&& 0xFF = 0x33 then
    let m1 := upd s.memory s.indexRegister ((s.registers X / 100) % 256)
    let m2 := upd m1 (s.indexRegister + 1) (s.registers X / 10 % 10)
    let m3 := upd m2 (s.indexRegister + 2) (s.registers X % 10)
    .ok { s with memory := m3,
                 programCounter := (s.programCounter + 2) % 65536 }
  else if w &&& 0xFF = 0x55 then
    .ok { s with memory := storeRegs s.registers s.indexRegister s.memory
                             (List.range (X + 1)),
                 programCounter := (s.programCounter + 2) % 65536 }
  else if w &&& 0xFF = 0x65 then
    .ok { s with registers := loadRegs s.memory s.indexRegister s.registers
                                (List.range (X + 1)),
                 programCounter := (s.programCounter + 2) % 65536 }
  else
    .unknownOpcode w

/-- Outer opcode dispatch (the switch on opcode & 0xF000, chip8.c lines
175-643).  All 16 top-nibble values have a case, so the final fallthrough
branch is unreachable; a fallthrough of a switch without default changes
nothing, hence .ok s there.  The rand argument supplies the value of the
one rand() call (opcode CXNN). -/
def execOpcode (s : Chip8) (w rand : Nat) : StepResult :=
  if w &&& 0xF000 = 0x0000 then exec0 s w
  else if w &&& 0xF000 = 0x1000 then
    .ok { s with programCounter := w &&& 0x0FFF }
  else if w &&& 0xF000 = 0x2000 then
    .ok { s with stack := upd s.stack s.stackPointer s.programCounter,
                 stackPointer := (s.stackPointer + 1) % 256,
                 programCounter := w &&& 0x0FFF }
  else if w &&& 0xF000 = 0x3000 then
    (if s.registers ((w &&& 0x0F00) >>> 8) = w &&& 0x00FF then
      .ok { s with programCounter := (s.programCounter + 4) % 65536 }
    else
      .ok { s with programCounter := (s.programCounter + 2) % 65536 })
  else if w &&& 0xF000 = 0x4000 then
    (if s.registers ((w &&& 0x0F00) >>> 8) ≠ w &&& 0x00FF then
      .ok { s with programCounter := (s.programCounter + 4) % 65536 }
    else
      .ok { s with programCounter := (s.programCounter + 2) % 65536 })
  else if w &&& 0xF000 = 0x5000 then
    (if s.registers ((w &&& 0x0F00) >>> 8) = s.registers ((w &&& 0x00F0) >>> 4) then
      .ok { s with programCounter := (s.programCounter + 4) % 65536 }
    else
      .ok { s with programCounter := (s.programCounter + 2) % 65536 })
  else if w &&& 0xF000 = 0x6000 then
    .ok { s with registers := upd s.registers ((w &&& 0x0F00) >>> 8) (w &&& 0x00FF),
                 programCounter := (s.programCounter + 2) % 65536 }
  else if w &&& 0xF000 = 0x7000 then
    .ok { s with registers := upd s.registers ((w &&& 0x0F00) >>> 8)
                    ((s.registers ((w &&& 0x0F00) >>> 8) + (w &&& 0x00FF)) % 256),
                 programCounter := (s.programCounter + 2) % 65536 }
  else if w &&& 0xF000 = 0x8000 then exec8 s w
  else if w &&& 0xF000 = 0x9000 then
    (if s.registers ((w &&& 0x0F00) >>> 8) ≠ s.registers ((w &&& 0x00F0) >>> 4) then
      .ok { s with programCounter := (s.programCounter + 4) % 65536 }
    else
      .ok { s with programCounter := (s.programCounter + 2) % 65536 })
  else if w &&& 0xF000 = 0xA000 then
    .ok { s with indexRegister := w &&& 0x0FFF,
                 programCounter := (s.programCounter + 2) % 65536 }
  else if w &&& 0xF000 = 0xB000 then
    -- chip8.c line 428: the C expression opcode & 0x0FFF + registers[0]
    -- parses as opcode & (0x0FFF + registers[0]) because + binds tighter
    -- than & in C
    .ok { s with programCounter := w &&& (0x0FFF + s.registers 0) }
  else if w &&& 0xF000 = 0xC000 then
    .ok { s with registers := upd s.registers ((w &&& 0x0F00) >>> 8)
                    (rand &&& (w &&& 0xFF)),
                 programCounter := (s.programCounter + 2) % 65536 }
  else if w &&& 0xF000 = 0xD000 then execD s w
  else if w &&& 0xF000 = 0xE000 then execE s w
  else if w &&& 0xF000 = 0xF000 then execF s w
  else .ok s

/-- One full fetch-decode-execute cycle (chip8.c lines 160-644): the
fetched word is stored into the opcode field and then dispatched. -/
def emulateChip8Cycle (s : Chip8) (rand : Nat) : StepResult :=
  execOpcode { s with opcode := fetchOpcode s } (fetchOpcode s) rand

/-- Embedding of updateChip8Timers (chip8.c lines 648-660). -/
def updateChip8Timers (c : Chip8) : Chip8 :=
  let c1 := if c.delayTimer > 0 then { c with delayTimer := c.delayTimer - 1 } else c
  if c1.soundTimer > 0 then
    let c2 := if c1.soundTimer = 1 then { c1 with soundFlag := true } else c1
    { c2 with soundTimer := c2.soundTimer - 1 }
  else c1

/-- Modelled from the spec: chip8.h (absent from src/) declares the
general register array with NUM_OF_REGISTERS = 15 entries, so indices
0..14 are the only cells of the register file; reading any other index is
an out-of-bounds access, returned here as none. -/
def regGet (regs : Nat → Nat) (r : Nat) : Option Nat :=
  if r < NUM_OF_REGISTERS then some (regs r) else none

/-- Modelled from the spec: bounds-checked register write into the
15-entry register file declared in the missing header, none on an
out-of-bounds index. -/
def regSet (regs : Nat → Nat) (r v : Nat) : Option (Nat → Nat) :=
  if r < NUM_OF_REGISTERS then some (upd regs r v) else none

/-- Store loop of opcode FX55 (chip8.c lines 614-617) with the register
read checked against the 15-entry register file of the missing header:
the loop faults (none) as soon as it touches a register index outside the
file. -/
def fx55Checked (regs : Nat → Nat) (ireg : Nat) (mem : Nat → Nat) :
    List Nat → Option (Nat → Nat)
  | [] => some mem
  | r :: rest =>
    match regGet regs r with
    | none => none
    | some v => fx55Checked regs ireg (upd mem (ireg + r) v) rest

/-- Load loop of opcode FX65 (chip8.c lines 625-628) with the register
write checked against the 15-entry register file of the missing header. -/
def fx65Checked (mem : Nat → Nat) (ireg : Nat) (regs : Nat → Nat) :
    List Nat → Option (Nat → Nat)
  | [] => some regs
  | r :: rest =>
    match regSet regs r (mem (ireg + r)) with
    | none => none
    | some regs2 => fx65Checked mem ireg regs2 rest

/-- Result of the FX0A scan over a key list, written as a recursive
function for comparison with fx0aLoop: the last listed pressed key, if
any; later list elements take priority, matching the overwriting scan of
the source. -/
def lastPressed (keys : Nat → Bool) : List Nat → Option Nat
  | [] => none
  | k :: rest =>
    match lastPressed keys rest with
    | some m => some m
    | none => if keys k then some k else none

/-- Baseline concrete machine state for counterexamples and witnesses:
everything zeroed, program counter at 0x200. -/
def cexBase : Chip8 :=
  { opcode := 0
    memory := fun _ => 0
    registers := fun _ => 0
    carryRegister := 0
    indexRegister := 0
    programCounter := 0x200
    pixels := fun _ => 0
    delayTimer := 0
    soundTimer := 0
    stack := fun _ => 0
    stackPointer := 0
    keys := fun _ => false
    drawFlag := false
    soundFlag := false }

/-- Concrete state for opcode 8XY4 at the overflow example: opcode 0x8124
in memory, registers[1] = 0xFF, registers[2] = 0x01. -/
def cex1 : Chip8 :=
  { cexBase with
    memory := fun a => if a = 0x200 then 0x81 else if a = 0x201 then 0x24 else 0
    registers := fun r => if r = 1 then 0xFF else if r = 2 then 0x01 else 0 }

/-- Concrete state for opcode BNNN: opcode 0xB200 in memory and
registers[0] = 1, so the documented target would be 0x200 + 1 = 0x201. -/
def cex2 : Chip8 :=
  { cexBase with
    memory := fun a => if a = 0x200 then 0xB2 else if a = 0x201 then 0x00 else 0
    registers := fun r => if r = 0 then 1 else 0 }

/-- Concrete state for opcode FX0A with two keys pressed: opcode 0xF10A in
memory and keys 0 and 1 both down. -/
def cex3 : Chip8 :=
  { cexBase with
    memory := fun a => if a = 0x200 then 0xF1 else if a = 0x201 then 0x0A else 0
    keys := fun k => k = 0 || k = 1 }

/-- Concrete state for the sprite draw: opcode 0xD011 (xpos from
registers[0] = 64, ypos from registers[1] = 0, height 1), index register
0x300, sprite byte 0x80, so the single drawn bit targets coordinate
(64, 0), which lies outside the 64-wide grid. -/
def cex4 : Chip8 :=
  { cexBase with
    memory := fun a => if a = 0x200 then 0xD0 else if a = 0x201 then 0x11 else
      if a = 0x300 then 0x80 else 0
    registers := fun r => if r = 0 then 64 else 0
    indexRegister := 0x300 }

/-- Concrete state for the 5XY0 variant with a non-zero trailing nibble:
opcode 0x5121 in memory; registers 1 and 2 are both 0, so the comparison
of the 5XY0 path succeeds. -/
def cex7 : Chip8 :=
  { cexBase with
    memory := fun a => if a = 0x200 then 0x51 else if a = 0x201 then 0x21 else 0 }

/-- Concrete witness state for the conditional skips: opcode 0x3107 in
memory and registers[1] = 7, so the skip of 3XNN is taken. -/
def c9wit : Chip8 :=
  { cexBase with
    memory := fun a => if a = 0x200 then 0x31 else if a = 0x201 then 0x07 else 0
    registers := fun r => if r = 1 then 7 else 0 }

/-- Concrete witness state for the unknown-opcode families: opcode 0x8129
in memory; sub-opcode nibble 9 is not defined in the 0x8 family. -/
def c7wit : Chip8 :=
  { cexBase with
    memory := fun a => if a = 0x200 then 0x81 else if a = 0x201 then 0x29 else 0 }

/-- Concrete witness state for FX0A: opcode 0xF50A in memory and exactly
one key pressed, key 3. -/
def c3wit : Chip8 :=
  { cexBase with
    memory := fun a => if a = 0x200 then 0xF5 else if a = 0x201 then 0x0A else 0
    keys := fun k => k = 3 }

/-! Bit-level decode lemmas: the engine decodes with shifts and masks; the
lemmas below convert those operations on a two-byte word 256 * hi + lo
into arithmetic on the bytes. -/

theorem shiftLeft_lor_eq_add (a b n : Nat) (hb : b < 2 ^ n) :
    (a <<< n) ||| b = a * 2 ^ n + b := by
  rw [Nat.shiftLeft_eq, Nat.mul_comm a (2 ^ n)]
  exact (Nat.mul_add_lt_is_or hb a).symm

theorem and_shifted_mask (x m n : Nat) :
    x &&& (m <<< n) = ((x >>> n) &&& m) <<< n := by
  apply Nat.eq_of_testBit_eq
  intro i
  rw [Nat.testBit_and, Nat.testBit_shiftLeft, Nat.testBit_shiftLeft,
    Nat.testBit_and, Nat.testBit_shiftRight]
  by_cases h : n ≤ i
  · have hni : n + (i - n) = i := by omega
    rw [hni]
    simp [h, ge_iff_le]
  · simp [h, ge_iff_le]

theorem fetch_bytes (hi lo : Nat) (hhi : hi < 256) (hlo : lo < 256) :
    ((hi <<< 8) ||| lo) % 65536 = 256 * hi + lo := by
  rw [shiftLeft_lor_eq_add hi lo 8 (by omega)]
  have e1 : (2 : Nat) ^ 8 = 256 := rfl
  rw [e1]
  omega

theorem decode_family (hi lo : Nat) (hhi : hi < 256) (hlo : lo < 256) :
    (256 * hi + lo) &&& 0xF000 = 4096 * (hi / 16) := by
  have h1 : (0xF000 : Nat) = 0xF <<< 12 := rfl
  have h2 : (0xF : Nat) = 2 ^ 4 - 1 := rfl
  rw [h1, and_shifted_mask, h2, Nat.and_pow_two_sub_one_eq_mod,
    Nat.shiftRight_eq_div_pow, Nat.shiftLeft_eq]
  have e1 : (2 : Nat) ^ 12 = 4096 := rfl
  have e2 : (2 : Nat) ^ 4 = 16 := rfl
  rw [e1, e2]
  omega

theorem decode_X (hi lo : Nat) (hhi : hi < 256) (hlo : lo < 256) :
    ((256 * hi + lo) &&& 0x0F00) >>> 8 = hi % 16 := by
  have h1 : (0x0F00 : Nat) = 0xF <<< 8 := rfl
  have h2 : (0xF : Nat) = 2 ^ 4 - 1 := rfl
  rw [h1, and_shifted_mask, h2, Nat.and_pow_two_sub_one_eq_mod]
  simp only [Nat.shiftRight_eq_div_pow, Nat.shiftLeft_eq]
  have e1 : (2 : Nat) ^ 8 = 256 := rfl
  have e2 : (2 : Nat) ^ 4 = 16 := rfl
  rw [e1, e2]
  omega

theorem decode_Y (hi lo : Nat) (hhi : hi < 256) (hlo : lo < 256) :
    ((256 * hi + lo) &&& 0x00F0) >>> 4 = lo / 16 := by
  have h1 : (0x00F0 : Nat) = 0xF <<< 4 := rfl
  have h2 : (0xF : Nat) = 2 ^ 4 - 1 := rfl
  rw [h1, and_shifted_mask, h2, Nat.and_pow_two_sub_one_eq_mod]
  simp only [Nat.shiftRight_eq_div_pow, Nat.shiftLeft_eq]
  have e1 : (2 : Nat) ^ 4 = 16 := rfl
  rw [e1]
  omega

theorem decode_NN (hi lo : Nat) (hlo : lo < 256) :
    (256 * hi + lo) &&& 0x00FF = lo := by
  have h2 : (0x00FF : Nat) = 2 ^ 8 - 1 := rfl
  rw [h2, Nat.and_pow_two_sub_one_eq_mod]
  have e1 : (2 : Nat) ^ 8 = 256 := rfl
  rw [e1]
  omega

theorem decode_NNN (hi lo : Nat) (hhi : hi < 256) (hlo : lo < 256) :
    (256 * hi + lo) &&& 0x0FFF = 256 * (hi % 16) + lo := by
  have h2 : (0x0FFF : Nat) = 2 ^ 12 - 1 := rfl
  rw [h2, Nat.and_pow_two_sub_one_eq_mod]
  have e1 : (2 : Nat) ^ 12 = 4096 := rfl
  rw [e1]
  omega

theorem decode_lowNib (hi lo : Nat) (hlo : lo < 256) :
    (256 * hi + lo) &&& 0x000F = lo % 16 := by
  have h2 : (0x000F : Nat) = 2 ^ 4 - 1 := rfl
  rw [h2, Nat.and_pow_two_sub_one_eq_mod]
  have e1 : (2 : Nat) ^ 4 = 16 := rfl
  rw [e1]
  omega

/-! Register file bounds: helper lemmas for the bounds-checked FX55/FX65
loops, their net effect on an in-range index list, and the round trip. -/

theorem regGet_lt (regs : Nat → Nat) (r : Nat) (h : r < NUM_OF_REGISTERS) :
    regGet regs r = some (regs r) := by
  simp [regGet, h]

theorem regSet_lt (regs : Nat → Nat) (r v : Nat) (h : r < NUM_OF_REGISTERS) :
    regSet regs r v = some (upd regs r v) := by
  simp [regSet, h]

theorem fx55Checked_append (regs : Nat → Nat) (ireg : Nat) (l1 l2 : List Nat) :
    ∀ mem, fx55Checked regs ireg mem (l1 ++ l2) =
      (fx55Checked regs ireg mem l1).bind (fun m => fx55Checked regs ireg m l2) := by
  induction l1 with
  | nil => intro mem; simp [fx55Checked]
  | cons r rest ih =>
    intro mem
    simp only [List.cons_append, fx55Checked]
    cases regGet regs r with
    | none => simp
    | some v => simp [ih]

theorem fx65Checked_append (mem : Nat → Nat) (ireg : Nat) (l1 l2 : List Nat) :
    ∀ regs, fx65Checked mem ireg regs (l1 ++ l2) =
      (fx65Checked mem ireg regs l1).bind (fun r => fx65Checked mem ireg r l2) := by
  induction l1 with
  | nil => intro regs; simp [fx65Checked]
  | cons r rest ih =>
    intro regs
    simp only [List.cons_append, fx65Checked]
    cases regSet regs r (mem (ireg + r)) with
    | none => simp
    | some regs2 => simp [ih]

theorem fx55Checked_range (regs mem : Nat → Nat) (ireg n : Nat) (h : n ≤ 15) :
    fx55Checked regs ireg mem (List.range n) =
      some (fun a => if ireg ≤ a ∧ a < ireg + n then regs (a - ireg) else mem a) := by
  induction n with
  | zero =>
    simp only [List.range_zero, fx55Checked]
    congr 1
    funext a
    rw [if_neg (by omega)]
  | succ n ih =>
    have hn : n ≤ 15 := by omega
    have hlt : n < NUM_OF_REGISTERS := by
      show n < 15
      omega
    rw [List.range_succ, fx55Checked_append, ih hn, Option.some_bind]
    simp only [fx55Checked, regGet_lt regs n hlt]
    congr 1
    funext a
    simp only [upd]
    by_cases ha : a = ireg + n
    · subst ha
      rw [if_pos rfl, if_pos (by omega)]
      congr 1
      omega
    · rw [if_neg ha]
      by_cases hb : ireg ≤ a ∧ a < ireg + n
      · rw [if_pos hb, if_pos (by omega)]
      · rw [if_neg hb, if_neg (by omega)]

theorem fx65Checked_range (mem regs : Nat → Nat) (ireg n : Nat) (h : n ≤ 15) :
    fx65Checked mem ireg regs (List.range n) =
      some (fun r => if r < n then mem (ireg + r) else regs r) := by
  induction n with
  | zero => rfl
  | succ n ih =>
    have hn : n ≤ 15 := by omega
    have hlt : n < NUM_OF_REGISTERS := by
      show n < 15
      omega
    rw [List.range_succ, fx65Checked_append, ih hn, Option.some_bind]
    simp only [fx65Checked, regSet, hlt, ite_true]
    congr 1
    funext r
    simp only [upd]
    by_cases hr : r = n
    · subst hr
      rw [if_pos rfl, if_pos (by omega)]
    · rw [if_neg hr]
      by_cases hb : r < n
      · rw [if_pos hb, if_pos (by omega)]
      · rw [if_neg hb, if_neg (by omega)]

/-- Round trip of the FX55 store and the FX65 load over registers 0..X
into a zeroed register file, for every X that stays inside the 15-entry
register file: the original register values are reproduced exactly. -/
theorem fx55_fx65_roundtrip (regs mem : Nat → Nat) (ireg X : Nat) (hX : X ≤ 14) :
    ∃ mem2 regs2,
      fx55Checked regs ireg mem (List.range (X + 1)) = some mem2 ∧
      fx65Checked mem2 ireg (fun _ => 0) (List.range (X + 1)) = some regs2 ∧
      ∀ r, r ≤ X → regs2 r = regs r := by
  refine ⟨_, _, fx55Checked_range regs mem ireg (X + 1) (by omega),
    fx65Checked_range _ _ ireg (X + 1) (by omega), ?_⟩
  intro r hr
  rw [if_pos (by omega), if_pos (by omega)]
  congr 1
  omega

/-- C5: the claimed round trip is stated for any X in [0,15], but the
register file declared in the reference source has NUM_OF_REGISTERS = 15
entries (indices 0 through 14), so the FX55 store loop for X = 15 must
read register index 15, one past the end of the file: the bounds-checked
store faults on every input instead of completing.  (For X in [0,14] the
round trip does hold: fx55_fx65_roundtrip.) -/
theorem fx55_register_file_overrun (regs mem : Nat → Nat) (ireg : Nat) :
    fx55Checked regs ireg mem (List.range 16) = none := by
  show fx55Checked regs ireg mem [0, 1, 2, 3, 4, 5, 6, 7, 8, 9, 10, 11, 12, 13, 14, 15] = none
  simp [fx55Checked, regGet, NUM_OF_REGISTERS]

/-- C1: at the claimed example (registers[X] = 0xFF, registers[Y] = 0x01,
here X = 1 and Y = 2 via opcode 0x8124) the code does set registers[X] to
0x00, but it leaves the flag register at 0, not 1: the overflow test of
case 0x4 runs after registers[X] has already been overwritten with the
wrapped sum, so it compares 0x01 against 0xFF - 0x00 and fails. -/
theorem opcode8XY4_flag_bug_at_example :
    resultField (fun c => c.registers 1) (emulateChip8Cycle cex1 0) = some 0x00 ∧
    resultField (fun c => c.carryRegister) (emulateChip8Cycle cex1 0) = some 0 := by
  constructor
  · decide
  · decide

/-- C2: with opcode 0xB200 and registers[0] = 1 the claim requires the
program counter to become NNN + registers[0] = 0x201, but the source
computes opcode & (0x0FFF + registers[0]) because + binds tighter than &
in C, which here is 0xB200 & 0x1000 = 0x1000. -/
theorem opcodeBNNN_precedence_jump :
    resultField (fun c => c.programCounter) (emulateChip8Cycle cex2 0) = some 0x1000 := by
  decide

/-- C4: in cex4 the single sprite bit targets coordinate (64, 0), outside
the 64-by-32 grid whose columns are 0..63, yet the off-screen test of the
source (strict comparison with 64) lets it through and the bit is XORed
into display buffer cell 64, which is cell (0, 1) of the grid: the pixel
is wrapped onto the next row instead of being skipped. -/
theorem opcodeDXYK_draws_offscreen_column :
    resultField (fun c => c.pixels 64) (emulateChip8Cycle cex4 0) = some 1 ∧
    resultField (fun c => c.programCounter) (emulateChip8Cycle cex4 0) = some 0x202 := by
  constructor
  · decide
  · decide

/-! Timer tick lemmas. -/

theorem tick_delayTimer (c : Chip8) :
    (updateChip8Timers c).delayTimer = c.delayTimer - 1 := by
  unfold updateChip8Timers
  by_cases hd : c.delayTimer > 0 <;> by_cases hs1 : c.soundTimer > 0 <;>
    by_cases hs2 : c.soundTimer = 1 <;> simp [hd, hs1, hs2] <;> omega

theorem tick_soundTimer (c : Chip8) :
    (updateChip8Timers c).soundTimer = c.soundTimer - 1 := by
  unfold updateChip8Timers
  by_cases hd : c.delayTimer > 0 <;> by_cases hs1 : c.soundTimer > 0 <;>
    by_cases hs2 : c.soundTimer = 1 <;> simp [hd, hs1, hs2] <;> omega

theorem tick_soundFlag (c : Chip8) :
    (updateChip8Timers c).soundFlag = (c.soundFlag || decide (c.soundTimer = 1)) := by
  unfold updateChip8Timers
  by_cases hd : c.delayTimer > 0 <;> by_cases hs1 : c.soundTimer > 0 <;>
    by_cases hs2 : c.soundTimer = 1 <;> simp [hd, hs1, hs2] <;> omega

theorem tick_frame (c : Chip8) :
    (updateChip8Timers c).opcode = c.opcode ∧
    (updateChip8Timers c).memory = c.memory ∧
    (updateChip8Timers c).registers = c.registers ∧
    (updateChip8Timers c).carryRegister = c.carryRegister ∧
    (updateChip8Timers c).indexRegister = c.indexRegister ∧
    (updateChip8Timers c).programCounter = c.programCounter ∧
    (updateChip8Timers c).pixels = c.pixels ∧
    (updateChip8Timers c).stack = c.stack ∧
    (updateChip8Timers c).stackPointer = c.stackPointer ∧
    (updateChip8Timers c).keys = c.keys ∧
    (updateChip8Timers c).drawFlag = c.drawFlag := by
  unfold updateChip8Timers
  by_cases hd : c.delayTimer > 0 <;> by_cases hs1 : c.soundTimer > 0 <;>
    by_cases hs2 : c.soundTimer = 1 <;> simp [hd, hs1, hs2]

theorem tickN_delay (k : Nat) :
    ∀ c : Chip8, (updateChip8Timers^[k] c).delayTimer = c.delayTimer - k := by
  induction k with
  | zero => intro c; simp
  | succ k ih =>
    intro c
    rw [Function.iterate_succ_apply, ih, tick_delayTimer]
    omega

theorem tickN_sound (k : Nat) :
    ∀ c : Chip8, (updateChip8Timers^[k] c).soundTimer = c.soundTimer - k := by
  induction k with
  | zero => intro c; simp
  | succ k ih =>
    intro c
    rw [Function.iterate_succ_apply, ih, tick_soundTimer]
    omega

theorem tickN_soundFlag (k : Nat) :
    ∀ c : Chip8, (updateChip8Timers^[k] c).soundFlag =
      (c.soundFlag || (decide (c.soundTimer ≠ 0) && decide (c.soundTimer ≤ k))) := by
  induction k with
  | zero =>
    intro c
    by_cases h0 : c.soundTimer = 0
    · simp [h0]
    · have hle : ¬(c.soundTimer ≤ 0) := by omega
      simp [h0, hle]
  | succ k ih =>
    intro c
    rw [Function.iterate_succ_apply, ih, tick_soundFlag, tick_soundTimer]
    by_cases h0 : c.soundTimer = 0
    · simp [h0]
    · by_cases h1 : c.soundTimer = 1
      · simp [h1]
      · have e1 : decide (c.soundTimer = 1) = false := by simp [h1]
        have e2 : decide (c.soundTimer - 1 ≠ 0) = true := by
          rw [decide_eq_true_eq]
          omega
        have e3 : decide (c.soundTimer ≠ 0) = true := by simp [h0]
        have e4 : decide (c.soundTimer - 1 ≤ k) = decide (c.soundTimer ≤ k + 1) := by
          rw [decide_eq_decide]
          omega
        rw [e1, e2, e3, e4]
        simp

/-- C6: one tick decrements the delay timer when positive and the sound
timer when positive (truncated subtraction leaves a zero timer at zero),
raises the one-shot sound flag exactly when the sound timer was 1 before
decrementing, and changes nothing else; iterating, k ticks leave a timer
started at V at V - k truncated at zero, so V ≤ k drives it to exactly 0
and no lower, and the sound flag (started false) is raised from the tick
numbered V onwards, that is, it fires exactly once, on the tick where the
sound timer goes from 1 to 0. -/
theorem timerTick_behavior :
    (∀ c : Chip8,
      (updateChip8Timers c).delayTimer = c.delayTimer - 1 ∧
      (updateChip8Timers c).soundTimer = c.soundTimer - 1 ∧
      (updateChip8Timers c).soundFlag = (c.soundFlag || decide (c.soundTimer = 1)) ∧
      (updateChip8Timers c).opcode = c.opcode ∧
      (updateChip8Timers c).memory = c.memory ∧
      (updateChip8Timers c).registers = c.registers ∧
      (updateChip8Timers c).carryRegister = c.carryRegister ∧
      (updateChip8Timers c).indexRegister = c.indexRegister ∧
      (updateChip8Timers c).programCounter = c.programCounter ∧
      (updateChip8Timers c).pixels = c.pixels ∧
      (updateChip8Timers c).stack = c.stack ∧
      (updateChip8Timers c).stackPointer = c.stackPointer ∧
      (updateChip8Timers c).keys = c.keys ∧
      (updateChip8Timers c).drawFlag = c.drawFlag) ∧
    (∀ (c : Chip8) (k : Nat), (updateChip8Timers^[k] c).delayTimer = c.delayTimer - k) ∧
    (∀ (c : Chip8) (k : Nat), (updateChip8Timers^[k] c).soundTimer = c.soundTimer - k) ∧
    (∀ (c : Chip8) (k : Nat), (updateChip8Timers^[k] c).soundFlag =
      (c.soundFlag || (decide (c.soundTimer ≠ 0) && decide (c.soundTimer ≤ k)))) := by
  refine ⟨fun c => ?_, fun c k => tickN_delay k c, fun c k => tickN_sound k c,
    fun c k => tickN_soundFlag k c⟩
  have hf := tick_frame c
  exact ⟨tick_delayTimer c, tick_soundTimer c, tick_soundFlag c, hf.1, hf.2.1, hf.2.2.1,
    hf.2.2.2.1, hf.2.2.2.2.1, hf.2.2.2.2.2.1, hf.2.2.2.2.2.2.1, hf.2.2.2.2.2.2.2.1,
    hf.2.2.2.2.2.2.2.2.1, hf.2.2.2.2.2.2.2.2.2.1, hf.2.2.2.2.2.2.2.2.2.2⟩

/-! Initializer lemmas. -/

theorem clearLoop_get (f : Nat → Nat) (n i : Nat) :
    clearLoop f n i = if i < n then 0 else f i := by
  induction n with
  | zero =>
    rw [if_neg (by omega)]
    rfl
  | succ n ih =>
    simp only [clearLoop, upd, ih]
    by_cases h1 : i = n
    · rw [if_pos h1, if_pos (by omega)]
    · rw [if_neg h1]
      by_cases h2 : i < n
      · rw [if_pos h2, if_pos (by omega)]
      · rw [if_neg h2, if_neg (by omega)]

theorem clearKeys_get (f : Nat → Bool) (n i : Nat) :
    clearKeys f n i = if i < n then false else f i := by
  induction n with
  | zero =>
    rw [if_neg (by omega)]
    rfl
  | succ n ih =>
    simp only [clearKeys, updB, ih]
    by_cases h1 : i = n
    · rw [if_pos h1, if_pos (by omega)]
    · rw [if_neg h1]
      by_cases h2 : i < n
      · rw [if_pos h2, if_pos (by omega)]
      · rw [if_neg h2, if_neg (by omega)]

theorem loadFontset_get (f : Nat → Nat) (n i : Nat) :
    loadFontset f n i = if i < n then fontset.getD i 0 else f i := by
  induction n with
  | zero =>
    rw [if_neg (by omega)]
    rfl
  | succ n ih =>
    simp only [loadFontset, upd, ih]
    by_cases h1 : i = n
    · subst h1
      rw [if_pos rfl, if_pos (by omega)]
    · rw [if_neg h1]
      by_cases h2 : i < n
      · rw [if_pos h2, if_pos (by omega)]
      · rw [if_neg h2, if_neg (by omega)]

/-- C8: initChip8 yields a state with program counter 0x200, opcode,
index register and stack pointer 0, draw flag cleared, the 2048 display
cells, 16 stack levels, the 15 cells of the register file, the flag
register and the 16 keys all cleared, both timers 0, and memory zeroed
except that cells 0x000-0x04F hold the 80-byte fontset verbatim. -/
theorem initChip8_reset_state (c : Chip8) :
    (initChip8 c).programCounter = 0x200 ∧
    (initChip8 c).opcode = 0 ∧
    (initChip8 c).indexRegister = 0 ∧
    (initChip8 c).stackPointer = 0 ∧
    (initChip8 c).drawFlag = false ∧
    (∀ p, (initChip8 c).pixels p = if p < 2048 then 0 else c.pixels p) ∧
    (∀ l, (initChip8 c).stack l = if l < 16 then 0 else c.stack l) ∧
    (∀ r, (initChip8 c).registers r = if r < NUM_OF_REGISTERS then 0 else c.registers r) ∧
    (initChip8 c).carryRegister = 0 ∧
    (∀ k, (initChip8 c).keys k = if k < 16 then false else c.keys k) ∧
    (∀ a, (initChip8 c).memory a =
      if a < 0x50 then fontset.getD a 0 else if a < 4096 then 0 else c.memory a) ∧
    (initChip8 c).delayTimer = 0 ∧
    (initChip8 c).soundTimer = 0 ∧
    fontset.length = 80 := by
  refine ⟨rfl, rfl, rfl, rfl, rfl, fun p => clearLoop_get _ _ _, fun l => clearLoop_get _ _ _,
    fun r => clearLoop_get _ _ _, rfl, fun k => clearKeys_get _ _ _, fun a => ?_, rfl, rfl, rfl⟩
  show loadFontset (clearLoop c.memory 4096) 0x50 a = _
  rw [loadFontset_get, clearLoop_get]

/-- C10: initChip8 resets the program counter, draw flag, timers, memory,
registers, keypad and stack, but never writes the one-shot sound flag, so
whatever value the sound flag held before re-initialization it still holds
afterwards. -/
theorem initChip8_preserves_soundFlag (c : Chip8) :
    (initChip8 c).soundFlag = c.soundFlag ∧
    (initChip8 c).programCounter = 0x200 ∧
    (initChip8 c).drawFlag = false ∧
    (initChip8 c).delayTimer = 0 ∧
    (initChip8 c).soundTimer = 0 :=
  ⟨rfl, rfl, rfl, rfl, rfl⟩

/-- C9: for all register contents and immediate fields, the conditional
skips 3XNN (skip when registers[X] = NN), 4XNN (skip when different),
5XY0 (skip when registers[X] = registers[Y]) and 9XY0 (skip when
different) advance the program counter by exactly 4 on a taken skip and
exactly 2 otherwise, and mutate nothing else: the resulting state differs
from the starting one only in the program counter and the transient
fetched-opcode latch. -/
theorem skip_opcodes_pc_arithmetic :
    (∀ (s : Chip8) (rand X NN : Nat), X < 16 → NN < 256 →
      s.memory s.programCounter = 0x30 + X →
      s.memory (s.programCounter + 1) = NN →
      s.programCounter + 4 < 65536 →
      emulateChip8Cycle s rand =
        .ok { s with opcode := 256 * (0x30 + X) + NN,
                     programCounter := if s.registers X = NN then s.programCounter + 4
                                       else s.programCounter + 2 }) ∧
    (∀ (s : Chip8) (rand X NN : Nat), X < 16 → NN < 256 →
      s.memory s.programCounter = 0x40 + X →
      s.memory (s.programCounter + 1) = NN →
      s.programCounter + 4 < 65536 →
      emulateChip8Cycle s rand =
        .ok { s with opcode := 256 * (0x40 + X) + NN,
                     programCounter := if s.registers X ≠ NN then s.programCounter + 4
                                       else s.programCounter + 2 }) ∧
    (∀ (s : Chip8) (rand X Y : Nat), X < 16 → Y < 16 →
      s.memory s.programCounter = 0x50 + X →
      s.memory (s.programCounter + 1) = 16 * Y →
      s.programCounter + 4 < 65536 →
      emulateChip8Cycle s rand =
        .ok { s with opcode := 256 * (0x50 + X) + 16 * Y,
                     programCounter := if s.registers X = s.registers Y then s.programCounter + 4
                                       else s.programCounter + 2 }) ∧
    (∀ (s : Chip8) (rand X Y : Nat), X < 16 → Y < 16 →
      s.memory s.programCounter = 0x90 + X →
      s.memory (s.programCounter + 1) = 16 * Y →
      s.programCounter + 4 < 65536 →
      emulateChip8Cycle s rand =
        .ok { s with opcode := 256 * (0x90 + X) + 16 * Y,
                     programCounter := if s.registers X ≠ s.registers Y then s.programCounter + 4
                                       else s.programCounter + 2 }) := by
  refine ⟨?_, ?_, ?_, ?_⟩
  · intro s rand X NN hX hNN h0 h1 hpc
    have hw : fetchOpcode s = 256 * (0x30 + X) + NN := by
      rw [fetchOpcode, h0, h1]
      exact fetch_bytes _ _ (by omega) hNN
    unfold emulateChip8Cycle
    rw [hw]
    unfold execOpcode
    rw [decode_family _ _ (by omega) hNN]
    have hfam : 4096 * ((0x30 + X) / 16) = 12288 := by omega
    rw [hfam]
    simp only [Nat.reduceEqDiff, reduceIte]
    rw [decode_X _ _ (by omega) hNN, decode_NN _ _ hNN]
    have hx16 : (0x30 + X) % 16 = X := by omega
    rw [hx16, Nat.mod_eq_of_lt hpc, Nat.mod_eq_of_lt (by omega : s.programCounter + 2 < 65536)]
    split <;> rfl
  · intro s rand X NN hX hNN h0 h1 hpc
    have hw : fetchOpcode s = 256 * (0x40 + X) + NN := by
      rw [fetchOpcode, h0, h1]
      exact fetch_bytes _ _ (by omega) hNN
    unfold emulateChip8Cycle
    rw [hw]
    unfold execOpcode
    rw [decode_family _ _ (by omega) hNN]
    have hfam : 4096 * ((0x40 + X) / 16) = 16384 := by omega
    rw [hfam]
    simp only [Nat.reduceEqDiff, reduceIte]
    rw [decode_X _ _ (by omega) hNN, decode_NN _ _ hNN]
    have hx16 : (0x40 + X) % 16 = X := by omega
    rw [hx16, Nat.mod_eq_of_lt hpc, Nat.mod_eq_of_lt (by omega : s.programCounter + 2 < 65536)]
    split <;> rfl
  · intro s rand X Y hX hY h0 h1 hpc
    have hw : fetchOpcode s = 256 * (0x50 + X) + 16 * Y := by
      rw [fetchOpcode, h0, h1]
      exact fetch_bytes _ _ (by omega) (by omega)
    unfold emulateChip8Cycle
    rw [hw]
    unfold execOpcode
    rw [decode_family _ _ (by omega) (by omega)]
    have hfam : 4096 * ((0x50 + X) / 16) = 20480 := by omega
    rw [hfam]
    simp only [Nat.reduceEqDiff, reduceIte]
    rw [decode_X _ _ (by omega) (by omega), decode_Y _ _ (by omega) (by omega)]
    have hx16 : (0x50 + X) % 16 = X := by omega
    have hy16 : 16 * Y / 16 = Y := by omega
    rw [hx16, hy16, Nat.mod_eq_of_lt hpc,
      Nat.mod_eq_of_lt (by omega : s.programCounter + 2 < 65536)]
    split <;> rfl
  · intro s rand X Y hX hY h0 h1 hpc
    have hw : fetchOpcode s = 256 * (0x90 + X) + 16 * Y := by
      rw [fetchOpcode, h0, h1]
      exact fetch_bytes _ _ (by omega) (by omega)
    unfold emulateChip8Cycle
    rw [hw]
    unfold execOpcode
    rw [decode_family _ _ (by omega) (by omega)]
    have hfam : 4096 * ((0x90 + X) / 16) = 36864 := by omega
    rw [hfam]
    simp only [Nat.reduceEqDiff, reduceIte]
    rw [decode_X _ _ (by omega) (by omega), decode_Y _ _ (by omega) (by omega)]
    have hx16 : (0x90 + X) % 16 = X := by omega
    have hy16 : 16 * Y / 16 = Y := by omega
    rw [hx16, hy16, Nat.mod_eq_of_lt hpc,
      Nat.mod_eq_of_lt (by omega : s.programCounter + 2 < 65536)]
    split <;> rfl

/-- Witness for C9: in c9wit the opcode 0x3107 sees registers[1] = 7, so
the skip is taken and the program counter advances from 0x200 to 0x204. -/
theorem skip_opcodes_witness :
    emulateChip8Cycle c9wit 0 =
      .ok { c9wit with opcode := 256 * (0x30 + 1) + 7,
                       programCounter := if c9wit.registers 1 = 7 then c9wit.programCounter + 4
                                         else c9wit.programCounter + 2 } :=
  skip_opcodes_pc_arithmetic.1 c9wit 0 1 7 (by decide) (by decide) (by decide)
    (by decide) (by decide)

/-- C7 (amended): for every instruction word in families 0x0, 0x8 and 0xF
whose bit pattern matches no defined opcode of its family, the cycle ends
in the unknown-opcode exit carrying the fetched word and produces no
successor state.  (In the remaining families every bit pattern executes
some defined behavior: the trailing nibble of 5XY0/9XY0 is never examined,
and an unmatched 0xE-family word falls through a switch without default.) -/
theorem unknownOpcode_families :
    (∀ (s : Chip8) (rand hi lo : Nat), hi < 16 → lo < 256 →
      s.memory s.programCounter = hi →
      s.memory (s.programCounter + 1) = lo →
      256 * hi + lo ≠ 0x00E0 → 256 * hi + lo ≠ 0x00EE →
      emulateChip8Cycle s rand = .unknownOpcode (256 * hi + lo)) ∧
    (∀ (s : Chip8) (rand X lo : Nat), X < 16 → lo < 256 →
      7 < lo % 16 → lo % 16 ≠ 14 →
      s.memory s.programCounter = 0x80 + X →
      s.memory (s.programCounter + 1) = lo →
      emulateChip8Cycle s rand = .unknownOpcode (256 * (0x80 + X) + lo)) ∧
    (∀ (s : Chip8) (rand X lo : Nat), X < 16 → lo < 256 →
      lo ≠ 0x07 → lo ≠ 0x0A → lo ≠ 0x15 → lo ≠ 0x18 → lo ≠ 0x1E →
      lo ≠ 0x29 → lo ≠ 0x33 → lo ≠ 0x55 → lo ≠ 0x65 →
      s.memory s.programCounter = 0xF0 + X →
      s.memory (s.programCounter + 1) = lo →
      emulateChip8Cycle s rand = .unknownOpcode (256 * (0xF0 + X) + lo)) := by
  refine ⟨?_, ?_, ?_⟩
  · intro s rand hi lo hhi hlo h0 h1 hne1 hne2
    have hw : fetchOpcode s = 256 * hi + lo := by
      rw [fetchOpcode, h0, h1]
      exact fetch_bytes _ _ (by omega) hlo
    unfold emulateChip8Cycle
    rw [hw]
    unfold execOpcode
    rw [decode_family _ _ (by omega) hlo]
    have hfam : 4096 * (hi / 16) = 0 := by omega
    rw [hfam]
    simp only [Nat.reduceEqDiff, reduceIte]
    unfold exec0
    rw [decode_NNN _ _ (by omega) hlo]
    have hmod : 256 * (hi % 16) + lo = 256 * hi + lo := by omega
    rw [hmod, if_neg hne1, if_neg hne2]
  · intro s rand X lo hX hlo hgt hne14 h0 h1
    have hw : fetchOpcode s = 256 * (0x80 + X) + lo := by
      rw [fetchOpcode, h0, h1]
      exact fetch_bytes _ _ (by omega) hlo
    unfold emulateChip8Cycle
    rw [hw]
    unfold execOpcode
    rw [decode_family _ _ (by omega) hlo]
    have hfam : 4096 * ((0x80 + X) / 16) = 32768 := by omega
    rw [hfam]
    simp only [Nat.reduceEqDiff, reduceIte]
    simp only [exec8]
    rw [decode_lowNib _ _ hlo]
    have e0 : lo % 16 ≠ 0 := by omega
    have e1 : lo % 16 ≠ 1 := by omega
    have e2 : lo % 16 ≠ 2 := by omega
    have e3 : lo % 16 ≠ 3 := by omega
    have e4 : lo % 16 ≠ 4 := by omega
    have e5 : lo % 16 ≠ 5 := by omega
    have e6 : lo % 16 ≠ 6 := by omega
    have e7 : lo % 16 ≠ 7 := by omega
    have e14 : lo % 16 ≠ 14 := by omega
    rw [if_neg e0, if_neg e1, if_neg e2, if_neg e3, if_neg e4, if_neg e5, if_neg e6,
      if_neg e7, if_neg e14]
  · intro s rand X lo hX hlo hn07 hn0A hn15 hn18 hn1E hn29 hn33 hn55 hn65 h0 h1
    have hw : fetchOpcode s = 256 * (0xF0 + X) + lo := by
      rw [fetchOpcode, h0, h1]
      exact fetch_bytes _ _ (by omega) hlo
    unfold emulateChip8Cycle
    rw [hw]
    unfold execOpcode
    rw [decode_family _ _ (by omega) hlo]
    have hfam : 4096 * ((0xF0 + X) / 16) = 61440 := by omega
    rw [hfam]
    simp only [Nat.reduceEqDiff, reduceIte]
    simp only [execF]
    rw [decode_NN _ _ hlo]
    rw [if_neg hn07, if_neg hn0A, if_neg hn15, if_neg hn18, if_neg hn1E, if_neg hn29,
      if_neg hn33, if_neg hn55, if_neg hn65]

/-- C7 (counterexample): opcode 0x5121 is a 5XY0 variant with trailing
nibble 1, so it matches no opcode of the defined instruction table, yet
the cycle does not report an unknown instruction: the comparison path of
5XY0 runs (registers 1 and 2 are both 0 in cex7) and the program counter
is mutated from 0x200 to 0x204. -/
theorem opcode5XY1_executes :
    resultField (fun c => c.programCounter) (emulateChip8Cycle cex7 0) = some 0x204 := by
  decide

/-- Witness for C7: opcode 0x8129 carries sub-opcode nibble 9, which the
0x8 family does not define, and the cycle ends in the unknown-opcode
exit. -/
theorem unknownOpcode_families_witness :
    emulateChip8Cycle c7wit 0 = .unknownOpcode (256 * (0x80 + 1) + 0x29) :=
  unknownOpcode_families.2.1 c7wit 0 1 0x29 (by decide) (by decide) (by decide)
    (by decide) (by decide) (by decide)

/-! Lemmas for the FX0A key scan. -/

theorem upd_upd (f : Nat → Nat) (i a b : Nat) : upd (upd f i a) i b = upd f i b := by
  funext j
  simp only [upd]
  by_cases h : j = i <;> simp [h]

theorem fx0aLoop_spec (X : Nat) (l : List Nat) :
    ∀ (c : Chip8) (pressed : Bool),
      c.programCounter + 2 * l.length < 65536 →
      fx0aLoop X c pressed l =
        ({ c with
            programCounter := c.programCounter + 2 * (l.countP fun k => c.keys k),
            registers := match lastPressed c.keys l with
                         | none => c.registers
                         | some m => upd c.registers X m },
          (pressed || l.any fun k => c.keys k)) := by
  induction l with
  | nil =>
    intro c pressed h
    simp [fx0aLoop, lastPressed]
  | cons k rest ih =>
    intro c pressed hb
    have hpc2 : c.programCounter + 2 < 65536 := by
      simp only [List.length_cons] at hb
      omega
    simp only [fx0aLoop]
    by_cases hk : c.keys k = true
    · rw [if_pos hk]
      have hmod : (c.programCounter + 2) % 65536 = c.programCounter + 2 :=
        Nat.mod_eq_of_lt hpc2
      rw [hmod]
      have hrec := ih { c with programCounter := c.programCounter + 2,
                               registers := upd c.registers X k } true (by
        simp only [List.length_cons] at hb
        simp only []
        omega)
      rw [hrec]
      simp only [List.countP_cons, List.any_cons, lastPressed, hk]
      rcases hlp : lastPressed c.keys rest with _ | m <;>
        simp [hlp, upd_upd, Prod.mk.injEq, Chip8.mk.injEq] <;> omega
    · rw [if_neg hk]
      have hkf : c.keys k = false := by
        revert hk
        cases c.keys k <;> simp
      rw [ih c pressed (by simp only [List.length_cons] at hb; omega)]
      have hlpc : lastPressed c.keys (k :: rest) = lastPressed c.keys rest := by
        simp only [lastPressed]
        rcases lastPressed c.keys rest <;> simp [hkf]
      simp [List.countP_cons, List.any_cons, hkf, hlpc]

theorem lastPressed_append (keys : Nat → Bool) (l1 l2 : List Nat) :
    lastPressed keys (l1 ++ l2) =
      match lastPressed keys l2 with
      | some m => some m
      | none => lastPressed keys l1 := by
  induction l1 with
  | nil =>
    simp only [List.nil_append]
    rcases lastPressed keys l2 <;> simp [lastPressed]
  | cons k rest ih =>
    simp only [List.cons_append, lastPressed, List.append_eq]
    rw [ih]
    rcases lastPressed keys l2 with _ | m2 <;>
      rcases lastPressed keys rest with _ | mr <;> simp

theorem lastPressed_single (keys : Nat → Bool) (n : Nat) :
    lastPressed keys [n] = if keys n then some n else none := by
  simp [lastPressed]

theorem lastPressed_range (keys : Nat → Bool) (n : Nat) :
    (∀ m, lastPressed keys (List.range n) = some m →
      keys m = true ∧ m < n ∧ ∀ j, j < n → keys j = true → j ≤ m) ∧
    (lastPressed keys (List.range n) = none → ∀ j, j < n → keys j = false) := by
  induction n with
  | zero =>
    constructor
    · intro m h
      simp [lastPressed] at h
    · intro h j hj
      omega
  | succ n ih =>
    rw [List.range_succ, lastPressed_append, lastPressed_single]
    by_cases hk : keys n = true
    · rw [if_pos hk]
      constructor
      · intro m h
        simp only [Option.some.injEq] at h
        subst h
        exact ⟨hk, by omega, fun j hj hkj => by omega⟩
      · intro h
        simp at h
    · rw [if_neg hk]
      have hkf : keys n = false := by
        revert hk
        cases keys n <;> simp
      constructor
      · intro m h
        obtain ⟨h1, h2, h3⟩ := ih.1 m h
        refine ⟨h1, by omega, fun j hj hkj => ?_⟩
        by_cases hjn : j = n
        · subst hjn
          rw [hkf] at hkj
          cases hkj
        · exact h3 j (by omega) hkj
      · intro h j hj
        by_cases hjn : j = n
        · subst hjn
          exact hkf
        · exact ih.2 h j (by omega)

/-- C3 (amended): executing FX0A advances the program counter by 2 for
each pressed key, not by exactly 2: the resulting state has
pc = pc + 2 * (number of pressed keys) and registers[X] set to the
highest-indexed pressed key (the scan overwrites lower hits), with no
other change beyond the transient opcode latch; when no key is pressed
the count is 0 and the register map is untouched, so the program counter
does not advance and the instruction is retried on the next cycle. -/
theorem fx0a_behavior (s : Chip8) (rand X : Nat) (hX : X < 16)
    (h0 : s.memory s.programCounter = 0xF0 + X)
    (h1 : s.memory (s.programCounter + 1) = 0x0A)
    (hpc : s.programCounter + 32 < 65536) :
    emulateChip8Cycle s rand =
      .ok { s with
        opcode := 256 * (0xF0 + X) + 0x0A,
        programCounter :=
          s.programCounter + 2 * ((List.range 16).countP fun k => s.keys k),
        registers := match lastPressed s.keys (List.range 16) with
                     | none => s.registers
                     | some m => upd s.registers X m } ∧
    (∀ m, lastPressed s.keys (List.range 16) = some m →
      s.keys m = true ∧ m < 16 ∧ ∀ j, j < 16 → s.keys j = true → j ≤ m) ∧
    ((∀ j, j < 16 → s.keys j = false) →
      (List.range 16).countP (fun k => s.keys k) = 0 ∧
      lastPressed s.keys (List.range 16) = none) := by
  have hcount0 : (∀ j, j < 16 → s.keys j = false) →
      (List.range 16).countP (fun k => s.keys k) = 0 := by
    intro hnone
    rw [List.countP_eq_zero]
    intro a ha
    rw [hnone a (List.mem_range.mp ha)]
    simp
  have hlp0 : (∀ j, j < 16 → s.keys j = false) →
      lastPressed s.keys (List.range 16) = none := by
    intro hnone
    rcases hlp : lastPressed s.keys (List.range 16) with _ | m
    · rfl
    · exfalso
      obtain ⟨hm1, hm2, _⟩ := (lastPressed_range s.keys 16).1 m hlp
      rw [hnone m hm2] at hm1
      cases hm1
  refine ⟨?_, (lastPressed_range s.keys 16).1, fun hnone => ⟨hcount0 hnone, hlp0 hnone⟩⟩
  have hw : fetchOpcode s = 256 * (0xF0 + X) + 0x0A := by
    rw [fetchOpcode, h0, h1]
    exact fetch_bytes _ _ (by omega) (by omega)
  unfold emulateChip8Cycle
  rw [hw]
  unfold execOpcode
  rw [decode_family _ _ (by omega) (by omega)]
  have hfam : 4096 * ((0xF0 + X) / 16) = 61440 := by omega
  rw [hfam]
  simp only [Nat.reduceEqDiff, reduceIte]
  simp only [execF]
  rw [decode_NN _ _ (by omega), decode_X _ _ (by omega) (by omega)]
  have hx16 : (0xF0 + X) % 16 = X := by omega
  rw [hx16]
  simp only [Nat.reduceEqDiff, reduceIte]
  rw [fx0aLoop_spec X (List.range 16) { s with opcode := 256 * (0xF0 + X) + 0x0A } false
    (by simp only [List.length_range]; omega)]
  by_cases hany : (List.range 16).any (fun k => s.keys k) = true
  · simp only [Bool.false_or]
    rw [if_pos hany]
  · have hanyf : (List.range 16).any (fun k => s.keys k) = false := by
      revert hany
      cases (List.range 16).any (fun k => s.keys k) <;> simp
    have hkeys : ∀ j, j < 16 → s.keys j = false := by
      intro j hj
      have hmem := List.any_eq_false.mp hanyf j (List.mem_range.mpr hj)
      revert hmem
      cases s.keys j <;> simp
    simp only [Bool.false_or]
    rw [hanyf, if_neg (by simp)]
    rw [hcount0 hkeys, hlp0 hkeys]
    simp

/-- C3 (counterexample): in cex3 the opcode is 0xF10A and keys 0 and 1
are both pressed; the claim requires the program counter to advance by
exactly 2 (to 0x202) regardless of how many keys are pressed, but the
cycle advances it by 2 per pressed key, to 0x204.  The highest-indexed
pressed key, 1, is stored in registers[1]. -/
theorem fx0a_two_keys_counterexample :
    resultField (fun c => c.programCounter) (emulateChip8Cycle cex3 0) = some 0x204 ∧
    resultField (fun c => c.registers 1) (emulateChip8Cycle cex3 0) = some 1 := by
  constructor
  · decide
  · decide

/-- Witness for C3: in c3wit exactly one key (key 3) is pressed, so the
FX0A cycle advances the program counter by 2 and stores key 3 into
registers[5]. -/
theorem fx0a_behavior_witness :
    emulateChip8Cycle c3wit 0 =
      .ok { c3wit with
        opcode := 256 * (0xF0 + 5) + 0x0A,
        programCounter :=
          c3wit.programCounter + 2 * ((List.range 16).countP fun k => c3wit.keys k),
        registers := match lastPressed c3wit.keys (List.range 16) with
                     | none => c3wit.registers
                     | some m => upd c3wit.registers 5 m } :=
  (fx0a_behavior c3wit 0 5 (by decide) (by decide) (by decide) (by decide)).1
